import Mathlib

/-!
Verification development for the flopy VTK export module
(`flopy/export/vtk.py`).

The Python source is shallowly embedded: stateful writer objects become
explicit state-passing functions, numpy float arrays become lists or
functions into `ℚ` (with `Option ℚ` when a cell may hold the IEEE
not-a-number marker: `none` stands for NaN), and Python `assert`
failures or raised exceptions become `Option`/`Except` failure values.
All definitions are translated from the source; definitions whose name
starts with `spec` restate the natural-language specification and are
compared with the source-derived ones in the theorems.
-/

/-! ## Streaming tag writer (`XmlWriterInterface`)

State of a writer: the `open_tag` flag, the stack `current` of open
element names (Python appends and pops at the END of the list, so the
top of the stack is the last element), the indentation level and the
text emitted so far.  `write_string` appends to `out`; closing the
underlying file is a no-op in the embedding. -/

structure XmlWr where
  open_tag : Bool
  current : List String
  indent_level : Int
  out : List String
deriving Repr, DecidableEq

def indentOf (n : Int) : String :=
  String.join (List.replicate n.toNat "  ")

/-- `XmlWriterInterface.open_element` -/
def open_element (st : XmlWr) (tag : String) : XmlWr :=
  let st := if st.open_tag then { st with out := st.out ++ [">"] } else st
  let indent := indentOf st.indent_level
  { st with
    indent_level := st.indent_level + 1
    out := st.out ++ ["\n" ++ indent ++ "<" ++ tag]
    open_tag := true
    current := st.current ++ [tag] }

/-- `XmlWriterInterface.close_element`.  `tag = some t` is the explicit
form: Python pops the last stack element and `assert`s it equals `t`
(a pop from an empty stack or a mismatch is a fatal error, modelled as
`none`).  `tag = none` is the self-closing form. -/
def close_element (st : XmlWr) (tag : Option String) : Option XmlWr :=
  let st := { st with indent_level := st.indent_level - 1 }
  match tag with
  | some t =>
    match st.current.getLast? with
    | none => none
    | some top =>
      let st := { st with current := st.current.dropLast }
      if top = t then
        let st := if st.open_tag then
            { st with out := st.out ++ [">"], open_tag := false }
          else st
        some { st with
               out := st.out ++ ["\n" ++ indentOf st.indent_level ++ "</" ++ t ++ ">"] }
      else none
  | none =>
    match st.current.getLast? with
    | none => none
    | some _ =>
      some { st with
             out := st.out ++ ["/>"], open_tag := false,
             current := st.current.dropLast }

/-- `XmlWriterInterface.final`: closes the outermost `VTKFile` element,
then asserts that no start tag is left open, then closes the file. -/
def xml_final (st : XmlWr) : Option XmlWr :=
  match close_element st (some "VTKFile") with
  | none => none
  | some st => if st.open_tag then none else some st

/-- State after `XmlWriterInterface.__init__`: the XML declaration has
been written and the `VTKFile` element opened with its version
attribute. -/
def xmlInitState : XmlWr :=
  { open_tag := true
    current := ["VTKFile"]
    indent_level := 1
    out := ["<?xml version=\"1.0\"?>", "\n<VTKFile", " version=\"0.1\""] }

/-! ## Binary array output strategy (`XmlWriterBinary`)

Only the offset/size bookkeeping of `write_array` is relevant here: the
DataArray element declares `offset = self.offset`, the payload of
`array_size = n_elements * itemsize` bytes is queued in
`processed_arrays`, and the running offset advances by
`array_size + self.byte_count_size` where `byte_count_size = 8` (the
UInt64 size prefix written before each block in `final`). -/

structure XmlWrBinary where
  offset : Nat
  processed_arrays : List Nat
deriving Repr, DecidableEq

/-- `XmlWriterBinary.write_array`, reduced to its offset bookkeeping:
takes the element count and item size of the (already mask-filtered)
payload, returns the new state and the `offset` attribute declared on
this DataArray element. -/
def bin_write_array (st : XmlWrBinary) (nElems itemsize : Nat) :
    XmlWrBinary × Nat :=
  let array_size := nElems * itemsize
  ({ offset := st.offset + array_size + 8
     processed_arrays := st.processed_arrays ++ [array_size] },
   st.offset)

/-- Run `write_array` over a sequence of arrays, collecting the declared
offset attribute of each DataArray in order. -/
def bin_write_seq : List (Nat × Nat) → XmlWrBinary → List Nat × XmlWrBinary
  | [], st => ([], st)
  | a :: rest, st =>
    let r := bin_write_array st a.1 a.2
    let q := bin_write_seq rest r.1
    (r.2 :: q.1, q.2)

/-- State of `XmlWriterBinary` after `__init__`: running offset 0, no
queued payloads. -/
def binInitState : XmlWrBinary := { offset := 0, processed_arrays := [] }

lemma bin_write_seq_spec (arrays : List (Nat × Nat)) :
    ∀ st : XmlWrBinary,
      (bin_write_seq arrays st).1 =
        (List.range arrays.length).map
          (fun k => st.offset +
            ((arrays.take k).map (fun p => p.1 * p.2 + 8)).sum) ∧
      (bin_write_seq arrays st).2.offset =
        st.offset + (arrays.map (fun p => p.1 * p.2 + 8)).sum := by
  induction arrays with
  | nil => intro st; simp [bin_write_seq]
  | cons a rest ih =>
    intro st
    have h := ih (bin_write_array st a.1 a.2).1
    refine ⟨?_, ?_⟩
    · simp only [bin_write_seq, h.1, List.length_cons, List.range_succ_eq_map,
        List.map_cons, List.map_map]
      congr 1
      apply List.map_congr_left
      intro k hk
      simp only [Function.comp_apply, bin_write_array, List.take_succ_cons,
        List.map_cons, List.sum_cons]
      omega
    · simp only [bin_write_seq, h.2]
      simp [bin_write_array]
      omega

/-- C1: in binary mode, over any sequence of arrays written by
`write_array`, the k-th DataArray's declared `offset` attribute equals
the sum over all prior arrays of (payload byte length + 8), starting
from offset 0, and after all calls the running offset has advanced by
every payload's bytes plus the 8-byte size prefix. -/
theorem binary_offsets_are_prefix_sums (arrays : List (Nat × Nat)) :
    (bin_write_seq arrays binInitState).1 =
      (List.range arrays.length).map
        (fun k => ((arrays.take k).map (fun p => p.1 * p.2 + 8)).sum) ∧
    (bin_write_seq arrays binInitState).2.offset =
      (arrays.map (fun p => p.1 * p.2 + 8)).sum := by
  have h := bin_write_seq_spec arrays binInitState
  simpa [binInitState] using h

/-! ## Element-stack discipline (claim C3)

`close_element` with an explicit tag pops the stack and asserts the
popped name equals the tag.  `final` closes the outermost `VTKFile`
element and then asserts only `not self.open_tag` — it never checks
that the stack became empty, so a sequence of opens that pushes a
second element named `VTKFile` makes `final` succeed with a nonempty
stack. -/

/-- C3 counterexample: after the constructor (stack `[VTKFile]`), open
an element `A` and then another element named `VTKFile`.  `final`
succeeds (no assertion fires) even though two elements are still on the
stack afterwards, refuting "finalize succeeds only if the element stack
is empty after closing the outermost element". -/
theorem final_succeeds_with_nonempty_stack :
    (xml_final (open_element (open_element xmlInitState "A") "VTKFile")).isSome
      = true ∧
    (xml_final (open_element (open_element xmlInitState "A") "VTKFile")).map
        XmlWr.current = some ["VTKFile", "A"] := by
  constructor
  · decide
  · decide

/-- C3 amended: `close_element` with an explicit tag succeeds exactly
when the tag equals the top of the element stack (any mismatch, or a
close on an empty stack, is a fatal assertion failure); `final`
succeeds exactly when the top of the element stack is `VTKFile` — the
trailing assertion only re-checks that no start tag is left open, so
the stack is not required to be empty. -/
theorem close_element_assert_and_final_iff (st : XmlWr) (t : String) :
    ((close_element st (some t)).isSome ↔ st.current.getLast? = some t) ∧
    ((xml_final st).isSome ↔ st.current.getLast? = some "VTKFile") := by
  constructor
  · cases h : st.current.getLast? with
    | none => simp [close_element, h]
    | some top =>
      by_cases htop : top = t
      · simp [close_element, h, htop]
      · simp [close_element, h, htop]
  · cases h : st.current.getLast? with
    | none => simp [xml_final, close_element, h]
    | some top =>
      by_cases htop : top = "VTKFile"
      · subst htop
        by_cases hop : st.open_tag
        · simp [xml_final, close_element, h, hop]
        · simp [xml_final, close_element, h, hop]
      · simp [xml_final, close_element, h, htop]

/-! ## Smoothing interpolation (`Vtk.extendedDataArray`, claim C5)

Cell values live in `ℚ`; `nanval` is the configured sentinel.  For each
vertex `(lay, row, col)` of the `(nlay+1) × (nrow+1) × (ncol+1)` vertex
grid the source collects the up-to-4 in-bounds neighbouring cell values
(indices are Python ints, so `row - 1` can be `-1` and fall out of
`range(nrow)`), averages those different from `nanval`, and falls back
to `nanval` when none qualifies. -/

/-- The `neighList` built inside `extendedDataArray`: values of the
in-bounds cells among `[(row-1,col-1), (row-1,col), (row,col-1),
(row,col)]`. -/
def vertexNeighList (nrow ncol : Nat) (d : Nat → Nat → Nat → ℚ)
    (lay row col : Nat) : List ℚ :=
  ([((row : Int) - 1, (col : Int) - 1), ((row : Int) - 1, (col : Int)),
    ((row : Int), (col : Int) - 1), ((row : Int), (col : Int))]).filterMap
    (fun p =>
      if 0 ≤ p.1 ∧ p.1 < (nrow : Int) ∧ 0 ≤ p.2 ∧ p.2 < (ncol : Int) then
        some (d lay p.1.toNat p.2.toNat)
      else none)

/-- `Vtk.extendedDataArray`, as a function of the vertex index.  If the
input does not already have `nlay + 1` layers its layer 0 is duplicated
in front (the `np.stack` prologue); then each vertex value is the mean
of the non-sentinel in-bounds neighbour values, or `nanval` when there
is none. -/
def extendedDataArray (nlay nrow ncol : Nat) (nanval : ℚ) (shape0 : Nat)
    (dataArray : Nat → Nat → Nat → ℚ) (lay row col : Nat) : ℚ :=
  let d : Nat → Nat → Nat → ℚ :=
    if shape0 = nlay + 1 then dataArray
    else fun l => if l = 0 then dataArray 0 else dataArray (l - 1)
  let neighL := vertexNeighList nrow ncol d lay row col
  let good := neighL.filter (fun v => decide (v ≠ nanval))
  if 0 < good.length then good.sum / (good.length : ℚ) else nanval

/-- Modelled from the spec wording: the neighbouring cells of a
grid-line intersection `(row, col)` are the in-bounds cells among the
four cells touching it, in the same enumeration order. -/
def specVertexNeighbors (nrow ncol : Nat) (d : Nat → Nat → Nat → ℚ)
    (lay row col : Nat) : List ℚ :=
  (if 1 ≤ row ∧ row - 1 < nrow ∧ 1 ≤ col ∧ col - 1 < ncol then
    [d lay (row - 1) (col - 1)] else []) ++
  (if 1 ≤ row ∧ row - 1 < nrow ∧ col < ncol then
    [d lay (row - 1) col] else []) ++
  (if row < nrow ∧ 1 ≤ col ∧ col - 1 < ncol then
    [d lay row (col - 1)] else []) ++
  (if row < nrow ∧ col < ncol then [d lay row col] else [])

lemma ite_singleton_congr {P Q : Prop} [Decidable P] [Decidable Q] {x y : ℚ}
    (hpq : P ↔ Q) (hxy : Q → x = y) :
    (if P then [x] else ([] : List ℚ)) = (if Q then [y] else []) := by
  by_cases h : Q
  · rw [if_pos (hpq.mpr h), if_pos h, hxy h]
  · rw [if_neg (fun hp => h (hpq.mp hp)), if_neg h]

lemma vertexNeighList_expand (nrow ncol : Nat) (d : Nat → Nat → Nat → ℚ)
    (lay row col : Nat) :
    vertexNeighList nrow ncol d lay row col =
      (if 0 ≤ (row : Int) - 1 ∧ (row : Int) - 1 < (nrow : Int) ∧
          0 ≤ (col : Int) - 1 ∧ (col : Int) - 1 < (ncol : Int) then
        [d lay ((row : Int) - 1).toNat ((col : Int) - 1).toNat] else []) ++
      (if 0 ≤ (row : Int) - 1 ∧ (row : Int) - 1 < (nrow : Int) ∧
          0 ≤ (col : Int) ∧ (col : Int) < (ncol : Int) then
        [d lay ((row : Int) - 1).toNat ((col : Int)).toNat] else []) ++
      (if 0 ≤ (row : Int) ∧ (row : Int) < (nrow : Int) ∧
          0 ≤ (col : Int) - 1 ∧ (col : Int) - 1 < (ncol : Int) then
        [d lay ((row : Int)).toNat ((col : Int) - 1).toNat] else []) ++
      (if 0 ≤ (row : Int) ∧ (row : Int) < (nrow : Int) ∧
          0 ≤ (col : Int) ∧ (col : Int) < (ncol : Int) then
        [d lay ((row : Int)).toNat ((col : Int)).toNat] else []) := by
  unfold vertexNeighList
  simp only [List.filterMap_cons, List.filterMap_nil]
  split_ifs <;> rfl

lemma vertexNeighList_eq_spec (nrow ncol : Nat) (d : Nat → Nat → Nat → ℚ)
    (lay row col : Nat) :
    vertexNeighList nrow ncol d lay row col =
      specVertexNeighbors nrow ncol d lay row col := by
  rw [vertexNeighList_expand]
  unfold specVertexNeighbors
  congr 1
  · congr 1
    · congr 1
      · refine ite_singleton_congr (by omega) (fun h => ?_)
        have ha : ((row : Int) - 1).toNat = row - 1 := by omega
        have hb : ((col : Int) - 1).toNat = col - 1 := by omega
        rw [ha, hb]
      · refine ite_singleton_congr (by omega) (fun h => ?_)
        have ha : ((row : Int) - 1).toNat = row - 1 := by omega
        have hb : ((col : Int)).toNat = col := by omega
        rw [ha, hb]
    · refine ite_singleton_congr (by omega) (fun h => ?_)
      have ha : ((row : Int)).toNat = row := by omega
      have hb : ((col : Int) - 1).toNat = col - 1 := by omega
      rw [ha, hb]
  · refine ite_singleton_congr (by omega) (fun h => ?_)
    have ha : ((row : Int)).toNat = row := by omega
    have hb : ((col : Int)).toNat = col := by omega
    rw [ha, hb]

/-- A 2×2 layer with values `[[1,2],[3,4]]`. -/
def exDataA : Nat → Nat → Nat → ℚ := fun _ i j =>
  if i = 0 ∧ j = 0 then 1 else if i = 0 ∧ j = 1 then 2
  else if i = 1 ∧ j = 0 then 3 else 4

/-- A 2×2 layer whose first column is `1` and second column `3`. -/
def exDataB : Nat → Nat → Nat → ℚ := fun _ _ j => if j = 0 then 1 else 3

/-- C5: the smoothing pass assigns each grid-line-intersection vertex
the arithmetic mean of the non-sentinel values of its in-bounds
neighbouring cells, and the sentinel when no in-bounds neighbour has a
non-sentinel value.  In particular an interior vertex with neighbour
values `[1,2,3,4]` gets `5/2`, an edge vertex whose two in-bounds
neighbours hold `[1,3]` gets `2`, and a vertex all of whose neighbours
carry the sentinel gets the sentinel. -/
theorem smoothing_interpolation_average :
    (∀ (nlay nrow ncol : Nat) (nanval : ℚ) (d : Nat → Nat → Nat → ℚ)
        (lay row col : Nat),
      extendedDataArray nlay nrow ncol nanval (nlay + 1) d lay row col =
        if 0 < ((specVertexNeighbors nrow ncol d lay row col).filter
            (fun v => decide (v ≠ nanval))).length then
          ((specVertexNeighbors nrow ncol d lay row col).filter
            (fun v => decide (v ≠ nanval))).sum /
          ((((specVertexNeighbors nrow ncol d lay row col).filter
            (fun v => decide (v ≠ nanval))).length : Nat) : ℚ)
        else nanval) ∧
    extendedDataArray 1 2 2 (-(10 ^ 20)) 2 exDataA 0 1 1 = 5 / 2 ∧
    extendedDataArray 1 2 2 (-(10 ^ 20)) 2 exDataB 0 0 1 = 2 ∧
    extendedDataArray 1 2 2 (-(10 ^ 20)) 2 (fun _ _ _ => -(10 ^ 20)) 0 1 1
      = -(10 ^ 20) := by
  refine ⟨?_, ?_, ?_, ?_⟩
  · intro nlay nrow ncol nanval d lay row col
    simp only [extendedDataArray, vertexNeighList_eq_spec]
    simp
  · norm_num [extendedDataArray, vertexNeighList, exDataA, List.filterMap_cons,
      List.filter_cons, List.filter_nil]
  · norm_num [extendedDataArray, vertexNeighList, exDataB, List.filterMap_cons,
      List.filter_cons, List.filter_nil]
  · norm_num [extendedDataArray, vertexNeighList, List.filterMap_cons,
      List.filter_cons, List.filter_nil]

/-! ## Grid-representation selection (`Vtk._vtk_grid_type`, claim C8)

The validity check of a caller-supplied override is Python
`vtk_grid_type in s` over the three allowable names — a SUBSTRING
test, not an equality test. -/

inductive GridTypeErr
  | valueError (msg : String)
  | notImplementedError (msg : String)
deriving Repr, DecidableEq

def allowable_types : List String :=
  ["ImageData", "RectilinearGrid", "UnstructuredGrid"]

def exceptIsOk : Except GridTypeErr (String × String) → Bool
  | .ok _ => true
  | .error _ => false

def exceptPayload : Except GridTypeErr (String × String) →
    Option (String × String)
  | .ok x => some x
  | .error _ => none

/-- `Vtk._vtk_grid_type`: resolves the requested grid representation
(`"auto"` or an explicit override) against the grid classification and
returns the representation with its file extension, or the raised
error. -/
def vtk_grid_type_of (grid_type : String) (is_regular is_rectilinear : Bool)
    (vtk_grid_type : String) : Except GridTypeErr (String × String) :=
  let checked : Except GridTypeErr String :=
    if vtk_grid_type = "auto" then
      if grid_type = "structured" then
        if is_regular then .ok "ImageData"
        else if is_rectilinear then .ok "RectilinearGrid"
        else .ok "UnstructuredGrid"
      else .ok "UnstructuredGrid"
    else
      if !(allowable_types.any
          (fun s => decide (List.IsInfix vtk_grid_type.toList s.toList))) then
        .error (.valueError (vtk_grid_type ++ " is not a correct vtk_grid_type"))
      else if (vtk_grid_type = "ImageData" ∨ vtk_grid_type = "RectilinearGrid")
          ∧ grid_type ≠ "structured" then
        .error (.notImplementedError
          ("vtk_grid_type cannot be " ++ vtk_grid_type ++
           " for a grid that is not structured"))
      else if vtk_grid_type = "ImageData" ∧ is_regular = false then
        .error (.valueError
          "vtk_grid_type cannot be ImageData for a non-regular grid spacing")
      else if vtk_grid_type = "RectilinearGrid" ∧ is_rectilinear = false then
        .error (.valueError
          "vtk_grid_type cannot be RectilinearGrid for a non-rectilinear grid spacing")
      else .ok vtk_grid_type
  match checked with
  | .error e => .error e
  | .ok t =>
    let ext := if t = "ImageData" then ".vti"
      else if t = "RectilinearGrid" then ".vtr" else ".vtu"
    .ok (t, ext)

/-- C8 counterexample: the override `"Grid"` is not one of the three
allowable grid types, yet construction raises no error: the validity
test is a substring test and `"Grid"` occurs inside
`"RectilinearGrid"`, so the invalid override is accepted and silently
mapped to the `.vtu` extension. -/
theorem invalid_override_not_rejected :
    exceptPayload (vtk_grid_type_of "structured" true true "Grid")
      = some ("Grid", ".vtu")
      ∧ "Grid" ∉ allowable_types := by
  constructor
  · decide
  · decide

/-- C8 amended: in auto mode a regular structured grid selects
ImageData (`.vti`), a rectilinear non-regular structured grid selects
RectilinearGrid (`.vtr`), anything else UnstructuredGrid (`.vtu`); an
override equal to `ImageData`/`RectilinearGrid` that is inconsistent
with the grid classification raises at construction time; but the
validity test for other overrides is a substring test, so only an
override that is not a substring of any of the three allowable names
raises — a proper substring such as `"Grid"` is accepted silently. -/
theorem grid_type_selection_and_validation (gt t : String) (reg rect : Bool) :
    vtk_grid_type_of "structured" true rect "auto"
      = Except.ok ("ImageData", ".vti") ∧
    vtk_grid_type_of "structured" false true "auto"
      = Except.ok ("RectilinearGrid", ".vtr") ∧
    vtk_grid_type_of "structured" false false "auto"
      = Except.ok ("UnstructuredGrid", ".vtu") ∧
    (gt ≠ "structured" → vtk_grid_type_of gt reg rect "auto"
      = Except.ok ("UnstructuredGrid", ".vtu")) ∧
    (t ≠ "auto" →
      allowable_types.any (fun s => decide (List.IsInfix t.toList s.toList))
        = false →
      exceptIsOk (vtk_grid_type_of gt reg rect t) = false) ∧
    exceptIsOk (vtk_grid_type_of "structured" false rect "ImageData")
      = false ∧
    exceptIsOk (vtk_grid_type_of "structured" reg false "RectilinearGrid")
      = false ∧
    (gt ≠ "structured" →
      exceptIsOk (vtk_grid_type_of gt reg rect "ImageData") = false) := by
  refine ⟨rfl, rfl, rfl, ?_, ?_, rfl, rfl, ?_⟩
  · intro h
    simp [vtk_grid_type_of, h]
  · intro h1 h2
    simp only [vtk_grid_type_of]
    rw [if_neg h1, if_pos (by simpa [String.toList] using h2)]
    rfl
  · intro h
    simp [vtk_grid_type_of, h, exceptIsOk, allowable_types]

/-- Witness for the amended C8 theorem at concrete inputs. -/
theorem grid_type_selection_witness :
    ("x" ≠ "structured"
      ∧ vtk_grid_type_of "x" true true "auto"
          = Except.ok ("UnstructuredGrid", ".vtu")) ∧
    ("Foo" ≠ "auto"
      ∧ allowable_types.any
          (fun s => decide (List.IsInfix "Foo".toList s.toList)) = false
      ∧ exceptIsOk (vtk_grid_type_of "x" true true "Foo") = false) ∧
    exceptIsOk (vtk_grid_type_of "x" true true "ImageData") = false :=
  ⟨⟨by decide,
    (grid_type_selection_and_validation "x" "Foo" true true).2.2.2.1
      (by decide)⟩,
   ⟨by decide, by decide,
    (grid_type_selection_and_validation "x" "Foo" true true).2.2.2.2.1
      (by decide) (by decide)⟩,
   (grid_type_selection_and_validation "x" "Foo" true true).2.2.2.2.2.2.2
     (by decide)⟩

/-! ## Array buffering (`Vtk.add_array`, claim C6)

Stored arrays are functions from 3D indices to `Option ℚ` (`none` is
NaN); input arrays carry their numpy shape explicitly. -/

structure FlArr where
  shape : List Nat
  val : List Nat → ℚ

structure VtkObj where
  nlay : Nat
  nrow : Nat
  ncol : Nat
  nanval : ℚ
  ibound : Nat → Nat → Nat → Nat
  arrays : List (String × (Nat → Nat → Nat → Option ℚ))

/-- Dictionary assignment `self.arrays[name] = a`: overwrite an
existing entry of the same name in place, otherwise append. -/
def dictSet (arrays : List (String × (Nat → Nat → Nat → Option ℚ)))
    (name : String) (v : Nat → Nat → Nat → Option ℚ) :
    List (String × (Nat → Nat → Nat → Option ℚ)) :=
  if arrays.any (fun p => p.1 == name) then
    arrays.map (fun p => if p.1 = name then (name, v) else p)
  else arrays ++ [(name, v)]

/-- `Vtk.add_array`: a 2D input is first broadcast into layer 0 of a
3D array filled with `nanval` (behind an uncaught shape assertion);
then the 3D shape check `assert a.shape == self.shape` runs inside
`try`, and on mismatch the `AssertionError` is swallowed and the call
returns with the object unchanged.  On match, every cell whose value
equals `nanval` or whose `ibound` entry is 0 becomes NaN (`none`) and
the float copy is stored under `name`. -/
def add_array (self : VtkObj) (name : String) (a : FlArr) (array2d : Bool) :
    Except String VtkObj :=
  let broadcast : Except String FlArr :=
    if array2d then
      if a.shape = [self.nrow, self.ncol] then
        .ok { shape := [self.nlay, self.nrow, self.ncol]
              val := fun idx =>
                match idx with
                | [k, i, j] => if k = 0 then a.val [i, j] else self.nanval
                | _ => self.nanval }
      else .error "AssertionError"
    else .ok a
  match broadcast with
  | .error e => .error e
  | .ok a =>
    if a.shape = [self.nlay, self.nrow, self.ncol] then
      let stored : Nat → Nat → Nat → Option ℚ := fun k i j =>
        if a.val [k, i, j] = self.nanval ∨ self.ibound k i j = 0 then none
        else some (a.val [k, i, j])
      .ok { self with arrays := dictSet self.arrays name stored }
    else
      .ok self

/-- C6: a 3D `add_array` call whose array shape does not match the
grid's 3D shape is a silent no-op — the buffer is unchanged and no
error reaches the caller.  (A 2D input is broadcast to exactly the
grid shape, so a post-broadcast shape mismatch can only arise for a 3D
input.) -/
theorem add_array_shape_mismatch_is_noop (self : VtkObj) (name : String)
    (a : FlArr) (h : a.shape ≠ [self.nlay, self.nrow, self.ncol]) :
    add_array self name a false = .ok self := by
  simp [add_array, h]

def vtkObjEx : VtkObj :=
  { nlay := 1, nrow := 1, ncol := 1, nanval := -(10 ^ 20)
    ibound := fun _ _ _ => 1, arrays := [] }

def flArrEx : FlArr := { shape := [2], val := fun _ => 0 }

/-- Witness for the C6 theorem at a concrete input. -/
theorem add_array_shape_mismatch_witness :
    flArrEx.shape ≠ [vtkObjEx.nlay, vtkObjEx.nrow, vtkObjEx.ncol] ∧
    add_array vtkObjEx "x" flArrEx false = .ok vtkObjEx :=
  ⟨by decide,
   add_array_shape_mismatch_is_noop vtkObjEx "x" flArrEx (by decide)⟩

/-! ## ASCII array output strategy (`XmlWriterAscii.write_array`, claim C7)

Arrays are lists of layers, each layer flattened in row-major order;
`none` is NaN.  The emission trace is a list of events; joining a
line's values with spaces into the actual text is abstracted as the
list of values of the line. -/

inductive XmlEvent
  | openEl (tag : String)
  | attr (key val : String)
  | line (vals : List ℚ)
  | closeEl (tag : String)
deriving Repr, DecidableEq

/-- numpy boolean indexing `array[lay][actwcells[lay] != 0].flatten()`:
keeps the entries at mask positions different from 0, in row-major
order; with no mask the whole layer is taken. -/
def maskedLayerFlat (layer : List (Option ℚ)) (mask : Option (List Nat)) :
    List (Option ℚ) :=
  match mask with
  | some ms => (layer.zip ms).filterMap
      (fun p => if p.2 ≠ 0 then some p.1 else none)
  | none => layer

/-- The in-place replacement `array_lay_flat[np.isnan(...)] = -1e9`. -/
def replaceNanLine (l : List (Option ℚ)) : List ℚ :=
  l.map (fun o => o.getD (-(10 ^ 9)))

/-- `XmlWriterAscii.write_array`: opens a `DataArray` element, adds the
type attribute, the caller's keyword attributes and `format="ascii"`,
then writes one line per layer (mask-filtered, NaN replaced by
`-1e9`), and closes the element. -/
def write_array_ascii (vtkType : String) (attrs : List (String × String))
    (array : List (List (Option ℚ))) (actw : Option (List (List Nat))) :
    List XmlEvent :=
  [XmlEvent.openEl "DataArray", XmlEvent.attr "type" vtkType]
  ++ attrs.map (fun p => XmlEvent.attr p.1 p.2)
  ++ [XmlEvent.attr "format" "ascii"]
  ++ (List.range array.length).map (fun lay =>
      XmlEvent.line (replaceNanLine (maskedLayerFlat (array.getD lay [])
        (actw.map (fun m => m.getD lay [])))))
  ++ [XmlEvent.closeEl "DataArray"]

/-- Modelled from the spec wording: the text line for one layer keeps
the mask-selected values in order, showing the literal `-1e9` exactly
at the not-a-number entries and the value itself elsewhere. -/
def specAsciiLine (layer : List (Option ℚ)) (mask : Option (List Nat)) :
    List ℚ :=
  match mask with
  | some ms => ((layer.zip ms).filter (fun p => decide (p.2 ≠ 0))).map
      (fun p => match p.1 with | none => -(10 ^ 9) | some v => v)
  | none => layer.map (fun o => match o with | none => -(10 ^ 9) | some v => v)

lemma replaceNan_maskedLayerFlat_eq_spec (layer : List (Option ℚ))
    (mask : Option (List Nat)) :
    replaceNanLine (maskedLayerFlat layer mask) = specAsciiLine layer mask := by
  have repl : ∀ o : Option ℚ, o.getD (-(10 ^ 9)) =
      (match o with | none => -(10 ^ 9) | some v => v) := by
    intro o; cases o <;> rfl
  match mask with
  | none =>
    simp only [maskedLayerFlat, replaceNanLine, specAsciiLine]
    exact List.map_congr_left (fun o _ => repl o)
  | some ms =>
    simp only [maskedLayerFlat, replaceNanLine, specAsciiLine]
    induction layer.zip ms with
    | nil => rfl
    | cons p t ih =>
      simp only [List.filterMap_cons, List.filter_cons]
      by_cases h : p.2 ≠ 0
      · rw [if_pos h, if_pos (by simp [h])]
        simp only [List.map_cons, ih]
        congr 1
        cases p.1 <;> rfl
      · rw [if_neg h, if_neg (by simp [h])]
        exact ih

/-- C7: in ASCII mode `write_array` emits one `DataArray` element with
a `format="ascii"` attribute containing exactly one line per layer,
and each line consists of the mask-selected values of that layer in
order with every not-a-number value replaced by the literal `-1e9`. -/
theorem ascii_write_array_emits_sentinel_lines (vtkType : String)
    (attrs : List (String × String)) (array : List (List (Option ℚ)))
    (actw : Option (List (List Nat))) :
    write_array_ascii vtkType attrs array actw =
      [XmlEvent.openEl "DataArray", XmlEvent.attr "type" vtkType]
      ++ attrs.map (fun p => XmlEvent.attr p.1 p.2)
      ++ [XmlEvent.attr "format" "ascii"]
      ++ (List.range array.length).map (fun lay =>
          XmlEvent.line (specAsciiLine (array.getD lay [])
            (actw.map (fun m => m.getD lay []))))
      ++ [XmlEvent.closeEl "DataArray"] := by
  unfold write_array_ascii
  simp only [replaceNan_maskedLayerFlat_eq_spec]

/-! ## Grid geometry engine (`Vtk.get_3d_vertex_connectivity`, claim C4)

The source iterates `for k in range(nlay): for i in range(nrow): for j
in range(ncol)`, increments `cellid` for every visited triple, skips
cells with `actwcells[k,i,j] == 0`, and for each emitted cell appends
8 vertices (bottom face then top face, corner order `pt1, pt2, pt0,
pt3` from the cell's 2D footprint `_cell_vert_list`, whose 5th point
repeats the first) and the next 8 consecutive global point indices
(`ipoint` advances by 4 per face, only for emitted cells). -/

def Pt : Type := ℚ × ℚ

structure CellGeom where
  verts : List (ℚ × ℚ × ℚ)
  ivert : List Nat
  zverts : List ℚ

/-- One flat-mode (non-smoothed) cell: its own 8 vertices at its four
2D corners, at `cellBot` then `cellTop`. -/
def flatCellGeom (pt0 pt1 pt2 pt3 : Pt) (cellBot cellTop : ℚ) (ip : Nat) :
    CellGeom :=
  { verts := [(pt1.1, pt1.2, cellBot), (pt2.1, pt2.2, cellBot),
              (pt0.1, pt0.2, cellBot), (pt3.1, pt3.2, cellBot),
              (pt1.1, pt1.2, cellTop), (pt2.1, pt2.2, cellTop),
              (pt0.1, pt0.2, cellTop), (pt3.1, pt3.2, cellTop)]
    ivert := [ip, ip + 1, ip + 2, ip + 3,
              ip + 4, ip + 4 + 1, ip + 4 + 2, ip + 4 + 3]
    zverts := [cellBot, cellBot, cellBot, cellBot,
               cellTop, cellTop, cellTop, cellTop] }

/-- One smoothed-mode cell: corner elevations come from the
interpolated vertex array `zV`, layer `k+1` (bottom) first, then
layer `k` (top). -/
def smoothCellGeom (pt0 pt1 pt2 pt3 : Pt) (zV : Nat → Nat → Nat → ℚ)
    (k i j ip : Nat) : CellGeom :=
  { verts := [(pt1.1, pt1.2, zV (k + 1) (i + 1) j),
              (pt2.1, pt2.2, zV (k + 1) (i + 1) (j + 1)),
              (pt0.1, pt0.2, zV (k + 1) i j),
              (pt3.1, pt3.2, zV (k + 1) i (j + 1)),
              (pt1.1, pt1.2, zV k (i + 1) j),
              (pt2.1, pt2.2, zV k (i + 1) (j + 1)),
              (pt0.1, pt0.2, zV k i j),
              (pt3.1, pt3.2, zV k i (j + 1))]
    ivert := [ip, ip + 1, ip + 2, ip + 3,
              ip + 4, ip + 4 + 1, ip + 4 + 2, ip + 4 + 3]
    zverts := [zV (k + 1) (i + 1) j, zV (k + 1) (i + 1) (j + 1),
               zV (k + 1) i j, zV (k + 1) i (j + 1),
               zV k (i + 1) j, zV k (i + 1) (j + 1),
               zV k i j, zV k i (j + 1)] }

/-- The `layer × row × column` iteration order of the triple loop. -/
def cellTriples (nlay nrow ncol : Nat) : List (Nat × Nat × Nat) :=
  (List.range nlay).flatMap (fun k =>
    (List.range nrow).flatMap (fun i =>
      (List.range ncol).map (fun j => (k, i, j))))

/-- The body of the triple loop: `cellid` advances on every triple,
inactive cells are skipped, and `ipoint` advances by 8 only for
emitted cells.  Returns the `ivertsdict` (with vertex and zvert data)
in emission order together with the final `ipoint`. -/
def vtkGo (smooth : Bool) (actwcells : Nat → Nat → Nat → Nat)
    (cellVerts : Nat → Nat → Pt × Pt × Pt × Pt)
    (top_botm : Nat → Nat → Nat → ℚ) (zV : Nat → Nat → Nat → ℚ) :
    List (Nat × Nat × Nat) → Nat → Nat → List (Nat × CellGeom) × Nat
  | [], _, ip => ([], ip)
  | (k, i, j) :: rest, cellid, ip =>
    if actwcells k i j = 0 then
      vtkGo smooth actwcells cellVerts top_botm zV rest (cellid + 1) ip
    else
      let pts := cellVerts i j
      let g :=
        if smooth = false then
          flatCellGeom pts.1 pts.2.1 pts.2.2.1 pts.2.2.2
            (top_botm (k + 1) i j) (top_botm k i j) ip
        else
          smoothCellGeom pts.1 pts.2.1 pts.2.2.1 pts.2.2.2 zV k i j ip
      let r := vtkGo smooth actwcells cellVerts top_botm zV rest
        (cellid + 1) (ip + 8)
      ((cellid, g) :: r.1, r.2)

/-- `Vtk.get_3d_vertex_connectivity`: when smoothing, the vertex
elevation array is `extendedDataArray` of the given data array (for
point scalars) or of `top_botm`; otherwise elevations are read
directly per cell inside the loop. -/
def get_3d_vertex_connectivity (nlay nrow ncol : Nat) (nanval : ℚ)
    (smooth : Bool) (cellVerts : Nat → Nat → Pt × Pt × Pt × Pt)
    (top_botm : Nat → Nat → Nat → ℚ) (shape0 : Nat)
    (zvalues : Option (Nat → Nat → Nat → ℚ))
    (actwcells : Nat → Nat → Nat → Nat) : List (Nat × CellGeom) × Nat :=
  let zV : Nat → Nat → Nat → ℚ :=
    if smooth then
      match zvalues with
      | some z => extendedDataArray nlay nrow ncol nanval shape0 z
      | none => extendedDataArray nlay nrow ncol nanval (nlay + 1) top_botm
    else fun _ _ _ => 0
  vtkGo smooth actwcells cellVerts top_botm zV (cellTriples nlay nrow ncol) 0 0

lemma flatCellGeom_ivert (pt0 pt1 pt2 pt3 : Pt) (cb ct : ℚ) (ip : Nat) :
    (flatCellGeom pt0 pt1 pt2 pt3 cb ct ip).ivert =
      (List.range 8).map (fun x => ip + x) := by
  simp [flatCellGeom, List.range_succ]

lemma length_flatMap_const {α : Type} (n m : Nat) (f : Nat → List α)
    (h : ∀ k, (f k).length = m) :
    ((List.range n).flatMap f).length = n * m := by
  induction n with
  | zero => simp
  | succ n ih =>
    simp [List.range_succ, List.flatMap_append, ih, h, Nat.succ_mul]

lemma cellTriples_length (nlay nrow ncol : Nat) :
    (cellTriples nlay nrow ncol).length = nlay * (nrow * ncol) := by
  unfold cellTriples
  refine length_flatMap_const nlay (nrow * ncol) _ (fun k => ?_)
  refine length_flatMap_const nrow ncol _ (fun i => ?_)
  simp

lemma vtkGo_all_active (cellVerts : Nat → Nat → Pt × Pt × Pt × Pt)
    (top_botm : Nat → Nat → Nat → ℚ) (zV : Nat → Nat → Nat → ℚ)
    (trips : List (Nat × Nat × Nat)) :
    ∀ cellid ip : Nat,
      (vtkGo false (fun _ _ _ => 1) cellVerts top_botm zV trips cellid ip).1.length
          = trips.length ∧
      (vtkGo false (fun _ _ _ => 1) cellVerts top_botm zV trips cellid ip).2
          = ip + 8 * trips.length ∧
      ((vtkGo false (fun _ _ _ => 1) cellVerts top_botm zV trips cellid
          ip).1.map (fun e => e.2.ivert)).flatten
        = (List.range (8 * trips.length)).map (fun x => ip + x) := by
  induction trips with
  | nil => intro cellid ip; simp [vtkGo]
  | cons t rest ih =>
    obtain ⟨k, i, j⟩ := t
    intro cellid ip
    obtain ⟨ih1, ih2, ih3⟩ := ih (cellid + 1) (ip + 8)
    have hstep : vtkGo false (fun _ _ _ => 1) cellVerts top_botm zV
        ((k, i, j) :: rest) cellid ip =
      ((cellid, flatCellGeom (cellVerts i j).1 (cellVerts i j).2.1
          (cellVerts i j).2.2.1 (cellVerts i j).2.2.2
          (top_botm (k + 1) i j) (top_botm k i j) ip) ::
        (vtkGo false (fun _ _ _ => 1) cellVerts top_botm zV rest
          (cellid + 1) (ip + 8)).1,
       (vtkGo false (fun _ _ _ => 1) cellVerts top_botm zV rest
          (cellid + 1) (ip + 8)).2) := by
      simp [vtkGo]
    refine ⟨?_, ?_, ?_⟩
    · rw [hstep]
      simp [ih1]
    · rw [hstep]
      simp only [ih2, List.length_cons]
      omega
    · rw [hstep]
      simp only [List.map_cons, List.flatten_cons, ih3, flatCellGeom_ivert,
        List.length_cons]
      rw [show 8 * (rest.length + 1) = 8 + 8 * rest.length by omega,
        List.range_add, List.map_append, List.map_map]
      congr 1
      apply List.map_congr_left
      intro x hx
      simp only [Function.comp_apply]
      omega

/-- C4: in flat (non-smoothed) mode on a fully active grid of shape
`(L, R, C)`, the geometry pass over `layer × row × column` emits
exactly `L*R*C` cells and allocates `8*L*R*C` points, and the point
indices, read off cell by cell in emission order, are exactly
`0, 1, ..., 8*L*R*C - 1` — contiguous, with no gaps and no index
reused across cells. -/
theorem flat_full_grid_connectivity (L R C : Nat) (nanval : ℚ)
    (cellVerts : Nat → Nat → Pt × Pt × Pt × Pt)
    (top_botm : Nat → Nat → Nat → ℚ) :
    (get_3d_vertex_connectivity L R C nanval false cellVerts top_botm (L + 1)
        none (fun _ _ _ => 1)).1.length = L * R * C ∧
    (get_3d_vertex_connectivity L R C nanval false cellVerts top_botm (L + 1)
        none (fun _ _ _ => 1)).2 = 8 * (L * R * C) ∧
    ((get_3d_vertex_connectivity L R C nanval false cellVerts top_botm (L + 1)
        none (fun _ _ _ => 1)).1.map (fun e => e.2.ivert)).flatten
      = List.range (8 * (L * R * C)) := by
  unfold get_3d_vertex_connectivity
  obtain ⟨h1, h2, h3⟩ := vtkGo_all_active cellVerts top_botm
    (fun _ _ _ => 0) (cellTriples L R C) 0 0
  simp only [if_neg (Bool.false_ne_true), cellTriples_length] at h1 h2 h3 ⊢
  refine ⟨by rw [h1]; ring, ?_, ?_⟩
  · rw [h2]
    ring
  · rw [h3]
    have e : 8 * (L * (R * C)) = 8 * (L * R * C) := by ring
    rw [e]
    simp

/-! ## Export orchestrator write path (`Vtk.write`, claims C2, C9, C10)

The UnstructuredGrid branch of `write` is modelled for a state holding
the buffered named arrays (flattened in row-major order, `none` for
NaN).  `_configure_data_arrays` works on `array.ravel()`, which aliases
the stored array, so its NaN replacement mutates the buffer; the model
returns the mutated buffer explicitly.  The result records whether
`xml.final()` was reached, the values written in the CellData pass
(per array, the mask-selected values of all layers in row-major order
— the per-layer lines of `write_array` concatenate to exactly this
sequence), and the array buffer left in the object after the call. -/

structure VtkWState where
  nlay : Nat
  nrow : Nat
  ncol : Nat
  nanval : ℚ
  smooth : Bool
  cellVerts : Nat → Nat → Pt × Pt × Pt × Pt
  top_botm : Nat → Nat → Nat → ℚ
  arrays : List (String × List (Option ℚ))

/-- `Vtk._configure_data_arrays`: every NaN entry of every buffered
array is overwritten (through the ravel view) with `nanval`, and a
cell of the output index array is 1 exactly when some buffered array
holds a value different from `nanval` there. -/
def configure_data_arrays (shape1d : Nat) (nanval : ℚ)
    (arrays : List (String × List (Option ℚ))) :
    List (String × List (Option ℚ)) × List Nat :=
  (arrays.map (fun na =>
      (na.1, na.2.map (fun o => match o with
        | none => some nanval
        | some v => some v))),
   (List.range shape1d).map (fun idx =>
      if arrays.any (fun na =>
          decide ((na.2.getD idx none).getD nanval ≠ nanval))
      then 1 else 0))

/-- The `verts` dictionary computed inside `write` for unstructured
output: geometry restricted to the active cells of
`_configure_data_arrays`. -/
def write_verts (st : VtkWState) : List (Nat × CellGeom) :=
  (get_3d_vertex_connectivity st.nlay st.nrow st.ncol st.nanval st.smooth
    st.cellVerts st.top_botm (st.nlay + 1) none
    (fun k i j =>
      (configure_data_arrays (st.nlay * st.nrow * st.ncol) st.nanval
        st.arrays).2.getD (k * (st.nrow * st.ncol) + i * st.ncol + j) 0)).1

structure WriteResult where
  finalized : Bool
  cellData : List (String × List ℚ)
  post : List (String × List (Option ℚ))
deriving Repr

/-- The UnstructuredGrid path of `Vtk.write`: configure the data
arrays (mutating the buffer), build the vertex dictionary, and if it
is empty return immediately — before `xml.final()` and before
`self.arrays.clear()`.  Otherwise stream the CellData pass over the
(mutated) buffered arrays, call `xml.final()` and clear the buffer. -/
def vtk_write (st : VtkWState) : WriteResult :=
  let pr := configure_data_arrays (st.nlay * st.nrow * st.ncol) st.nanval
    st.arrays
  let arrs := pr.1
  let actw := pr.2
  if (write_verts st).length = 0 then
    { finalized := false, cellData := [], post := arrs }
  else
    { finalized := true
      cellData := arrs.map (fun na =>
        (na.1, (na.2.zip actw).filterMap
          (fun p => if p.2 ≠ 0 then some (p.1.getD (-(10 ^ 9))) else none)))
      post := [] }

/-- A 1×1×1 state whose single buffered array is all NaN: no cell is
active. -/
def stEmpty : VtkWState :=
  { nlay := 1, nrow := 1, ncol := 1, nanval := -(10 ^ 20), smooth := false
    cellVerts := fun _ _ => ((0, 0), (0, 1), (1, 1), (1, 0))
    top_botm := fun _ _ _ => 0
    arrays := [("head", [none])] }

/-- A 1×1×1 state whose single buffered array holds a real value. -/
def stActive : VtkWState :=
  { nlay := 1, nrow := 1, ncol := 1, nanval := -(10 ^ 20), smooth := false
    cellVerts := fun _ _ => ((0, 0), (0, 1), (1, 1), (1, 0))
    top_botm := fun _ _ _ => 0
    arrays := [("head", [some 1])] }

/-- C2 counterexample: with a single all-NaN buffered array no cell is
active, so `write` returns early; it does not raise, but
`self.arrays.clear()` is only reached at the end of the full write
path, so the buffer is NOT cleared — it still holds the array, whose
NaN entry was meanwhile overwritten in place with the no-data value. -/
theorem zero_active_write_keeps_buffer :
    (write_verts stEmpty).length = 0 ∧
    (vtk_write stEmpty).post = [("head", [some (-(10 ^ 20))])] ∧
    (vtk_write stEmpty).post ≠ [] := by
  refine ⟨by decide, by decide, by decide⟩

/-- C2 amended: when zero cells are active for unstructured output at
write time, the call aborts that single file write early and does not
raise, but — contrary to the original claim — the named-array buffer
is NOT cleared: the object still holds every buffered array (with its
NaN entries replaced in place by the no-data value), and the writer is
never finalized. -/
theorem zero_active_write_aborts_without_clearing (st : VtkWState)
    (h : (write_verts st).length = 0) :
    (vtk_write st).finalized = false ∧
    (vtk_write st).cellData = [] ∧
    (vtk_write st).post =
      (configure_data_arrays (st.nlay * st.nrow * st.ncol) st.nanval
        st.arrays).1 ∧
    (vtk_write st).post.length = st.arrays.length := by
  simp only [vtk_write]
  rw [if_pos h]
  refine ⟨rfl, rfl, rfl, ?_⟩
  simp [configure_data_arrays]

/-- Witness for the amended C2 theorem at a concrete input. -/
theorem zero_active_write_witness :
    (write_verts stEmpty).length = 0 ∧
    (vtk_write stEmpty).finalized = false ∧
    (vtk_write stEmpty).post.length = stEmpty.arrays.length :=
  ⟨by decide,
   (zero_active_write_aborts_without_clearing stEmpty (by decide)).1,
   (zero_active_write_aborts_without_clearing stEmpty (by decide)).2.2.2⟩

/-- C9 counterexample: on the zero-active-cells early return of
`write`, `xml.final()` is never reached, so the file handle opened by
the writer constructor at the start of this `write` call is left open
— the guaranteed-close discipline fails on this path. -/
theorem early_return_leaves_handle_open :
    (write_verts stEmpty).length = 0 ∧
    (vtk_write stEmpty).finalized = false := by
  refine ⟨by decide, by decide⟩

/-- C9 amended: the writer is finalized — releasing the handle exactly
once — on every write that runs to the end of the write path; but on
the zero-active-cells early return of the unstructured path the
handle is NOT released. -/
theorem write_finalizes_iff_not_early_return (st : VtkWState) :
    ((write_verts st).length ≠ 0 → (vtk_write st).finalized = true) ∧
    ((write_verts st).length = 0 → (vtk_write st).finalized = false) := by
  constructor
  · intro h
    simp only [vtk_write]
    rw [if_neg h]
  · intro h
    simp only [vtk_write]
    rw [if_pos h]

/-- Witness for the amended C9 theorem at concrete inputs. -/
theorem write_finalizes_witness :
    (write_verts stActive).length ≠ 0 ∧
    (vtk_write stActive).finalized = true ∧
    (write_verts stEmpty).length = 0 ∧
    (vtk_write stEmpty).finalized = false :=
  ⟨by decide,
   (write_finalizes_iff_not_early_return stActive).1 (by decide),
   by decide,
   (write_finalizes_iff_not_early_return stEmpty).2 (by decide)⟩

lemma celldata_line_eq (nanval : ℚ) (a : List (Option ℚ)) (actw : List Nat) :
    ((a.map (fun o => some (o.getD nanval))).zip actw).filterMap
        (fun p => if p.2 ≠ 0 then some (p.1.getD (-(10 ^ 9))) else none)
      = (a.zip actw).filterMap
        (fun p => if p.2 ≠ 0 then some (p.1.getD nanval) else none) := by
  rw [List.zip_map_left, List.filterMap_map]
  congr 1

/-- C10: computing the active-cell selection mutates the stored named
arrays in place: after `_configure_data_arrays` the buffer equals the
original with every NaN entry overwritten by the configured no-data
value, and on the non-early-return path the CellData pass then writes
exactly these mutated arrays — every written value is the original
cell value with NaN replaced by the no-data value (never by the ASCII
NaN sentinel `-1e9`, since no NaN is left when the pass runs). -/
theorem configure_mutates_arrays_before_celldata (st : VtkWState) :
    (configure_data_arrays (st.nlay * st.nrow * st.ncol) st.nanval
        st.arrays).1 =
      st.arrays.map (fun na =>
        (na.1, na.2.map (fun o => some (o.getD st.nanval)))) ∧
    ((write_verts st).length ≠ 0 →
      (vtk_write st).cellData =
        st.arrays.map (fun na =>
          (na.1, (na.2.zip (configure_data_arrays
              (st.nlay * st.nrow * st.ncol) st.nanval st.arrays).2).filterMap
            (fun p => if p.2 ≠ 0 then some (p.1.getD st.nanval) else none)))) := by
  have hconf : (configure_data_arrays (st.nlay * st.nrow * st.ncol) st.nanval
      st.arrays).1 =
      st.arrays.map (fun na =>
        (na.1, na.2.map (fun o => some (o.getD st.nanval)))) := by
    simp only [configure_data_arrays]
    apply List.map_congr_left
    intro na _
    congr 1
    apply List.map_congr_left
    intro o _
    cases o <;> rfl
  refine ⟨hconf, ?_⟩
  intro h
  simp only [vtk_write]
  rw [if_neg h]
  rw [hconf, List.map_map]
  apply List.map_congr_left
  intro na _
  simp only [Function.comp_apply]
  exact congrArg (fun l => (na.1, l))
    (celldata_line_eq st.nanval na.2
      (configure_data_arrays (st.nlay * st.nrow * st.ncol) st.nanval
        st.arrays).2)

/-- Witness for the C10 theorem at a concrete input. -/
theorem configure_mutates_witness :
    (configure_data_arrays (stActive.nlay * stActive.nrow * stActive.ncol)
        stActive.nanval stActive.arrays).1 =
      stActive.arrays.map (fun na =>
        (na.1, na.2.map (fun o => some (o.getD stActive.nanval)))) ∧
    (write_verts stActive).length ≠ 0 ∧
    (vtk_write stActive).cellData = [("head", [1])] :=
  ⟨(configure_mutates_arrays_before_celldata stActive).1,
   by decide,
   by
    rw [(configure_mutates_arrays_before_celldata stActive).2 (by decide)]
    decide⟩
